import Mathlib

/-!
Verification of the dfvfs repository's dependency-checking script and of
the store-volume (volume shadow snapshot) file system's lookup semantics.

Two source areas are covered:

* `utils/check_dependencies.py` — its functions
  `GetLibyalGoogleDriveVersion` and `CheckPythonModule` are embedded below,
  with the network responses and the regular-expression match results taken
  as explicit inputs.

* the VShadow store-volume file system `dfvfs/vfs/vshadow_file_system.py` —
  this implementation file is absent from the source tree (only its unit
  test `dfvfs/vfs/vshadow_file_system_test.py` is present), so the file
  system's states and lookup algorithm are modelled from the specification.
-/

namespace Dfvfs

/-- Python exceptions that the embedded fragments of
`utils/check_dependencies.py` can raise. -/
inductive PyExc where
  | AttributeError
  | ValueError
  deriving DecidableEq

/-- A Python module as seen by `CheckPythonModule`: `getattr` returns the
value of a string attribute, or `none` when the attribute is missing
(mirroring `getattr(module_object, name, None)` with default `None`). -/
structure PyModule where
  getattr : String → Option String

/-- Python `int(s)` on a string: parses a decimal integer, raising
`ValueError` when the string is not a valid integer literal. -/
def pyInt (s : String) : Except PyExc Int :=
  match s.toInt? with
  | some n => Except.ok n
  | none => Except.error PyExc.ValueError

/-- The call `module_version.split(chr 46)` of `CheckPythonModule`, applied
to the result of `getattr(..., None)`: when `module_version` is `None` the
call raises `AttributeError` (`NoneType` has no attribute `split`),
otherwise it splits the string on dots. -/
def pySplitVersion : Option String → Except PyExc (List String)
  | none => Except.error PyExc.AttributeError
  | some s => Except.ok (s.splitOn ".")

/-- Python list comparison `xs < ys` on integer lists: lexicographic, and a
strict prefix is smaller than any of its extensions. -/
def pyListLt : List Int → List Int → Bool
  | [], [] => false
  | [], _ :: _ => true
  | _ :: _, [] => false
  | x :: xs, y :: ys =>
    if x < y then true
    else if y < x then false
    else pyListLt xs ys

/-- Embedding of `CheckPythonModule` from `utils/check_dependencies.py`
(lines 116-152). The importable modules are an explicit input `modules`;
`modules name = none` models an `ImportError`, which the function catches
and turns into the return value `False`. When the import succeeds, the
function reads `getattr(module_object, version_attribute_name, None)`,
splits the result on dots, converts each component with `int`, does the
same with `minimum_version`, and returns `False` exactly when the module's
version list compares below the minimum's. -/
def CheckPythonModule (modules : String → Option PyModule)
    (module_name version_attribute_name minimum_version : String) :
    Except PyExc Bool :=
  match modules module_name with
  | none => Except.ok false
  | some module_object => do
    let module_version := module_object.getattr version_attribute_name
    let parts ← pySplitVersion module_version
    let module_version_map ← parts.mapM pyInt
    let minimum_version_map ← (minimum_version.splitOn ".").mapM pyInt
    Except.ok (!(pyListLt module_version_map minimum_version_map))

/-- Python `max` on a list of strings (lexicographic by code point, first
maximum kept); the caller only applies it to a non-empty list, on which the
fold below agrees with Python's `max`. -/
def pyMaxString (l : List String) : String :=
  l.foldl (fun x y => if x < y then y else x) ""

/-- Python `int` on a string that the regular expression capture group
`[0-9]+` produced, hence consisting of decimal digits. -/
def pyIntOfDigits (s : String) : Int :=
  Int.ofNat ((s.toNat?).getD 0)

/-- Embedding of `GetLibyalGoogleDriveVersion` from
`utils/check_dependencies.py` (lines 24-69). The interaction with the
network and with the regular-expression engine is taken as input:
`first_code` is the response code of the fetch of the library page,
`downloads_matches` the matches of the Downloads-link pattern in that
page, `second_code` the response code of the fetch of the downloads page,
and `version_matches` the matches of the version capture group `[0-9]+`
there. The result `none` models Python `None`; `some v` models the
integer `v`. -/
def GetLibyalGoogleDriveVersion (first_code : Nat)
    (downloads_matches : List String) (second_code : Nat)
    (version_matches : List String) : Option Int :=
  if first_code ≠ 200 then none
  else if downloads_matches = [] ∨ downloads_matches.length ≠ 1 then some 0
  else if second_code ≠ 200 then some 0
  else if version_matches = [] then some 0
  else some (pyIntOfDigits (pyMaxString version_matches))

/-- Errors surfaced by the store-volume file system's lookup operations. -/
inductive VfsError where
  | NotOpen
  | InvalidSpec
  deriving DecidableEq

/-- Modelled from the spec: the leaf attributes of a VShadow path
specification as consumed by the lookup operations of the absent
`dfvfs/vfs/vshadow_file_system.py` — an optional zero-based `store_index`
and an optional `location` string, exactly the two keyword arguments the
unit test passes to `VShadowPathSpec`. -/
structure VShadowPathSpec where
  store_index : Option Int := none
  location : Option String := none
  deriving DecidableEq

/-- A virtual directory entry of the store-volume file system: the root
entry has the empty name and no store index, and the entry of the store
with zero-based index `i` is named after the one-based store number. -/
structure FileEntry where
  name : String
  store_index : Option Nat
  deriving DecidableEq

/-- Modelled from the spec: the two lifecycle states of the store-volume
file system; an open file system carries its fixed `storeCount`. -/
inductive FSState where
  | Closed
  | Open (storeCount : Nat)
  deriving DecidableEq

/-- Modelled from the spec: for the lookup semantics a store-volume file
system instance is its lifecycle state. -/
structure VShadowFileSystem where
  state : FSState
  deriving DecidableEq

/-- Numeric value of a decimal digit character. -/
def digitVal (c : Char) : Nat :=
  c.toNat - 48

/-- Value of a list of decimal digit characters, most significant first. -/
def digitsVal (cs : List Char) : Nat :=
  cs.foldl (fun a c => a * 10 + digitVal c) 0

/-- Modelled from the spec: the digit part of a store location must be a
positive integer with no leading zero; any other character list matches no
store. -/
def parseStoreNumber (cs : List Char) : Option Nat :=
  match cs with
  | [] => none
  | c :: rest =>
    if (c :: rest).all Char.isDigit = true ∧ c ≠ '0' then
      some (digitsVal (c :: rest))
    else none

/-- Modelled from the spec: a location of the exact form a slash, the
three letters vss, and a positive integer with no leading zero denotes
that store number; every other location denotes no store. -/
def locationStoreNumber (loc : String) : Option Nat :=
  if loc.toList.take 4 = ['/', 'v', 's', 's'] then
    parseStoreNumber (loc.toList.drop 4)
  else none

/-- The root directory entry. -/
def rootEntry : FileEntry :=
  { name := "", store_index := none }

/-- The directory entry of the store with zero-based index `i`. -/
def storeEntry (i : Nat) : FileEntry :=
  { name := "vss" ++ toString (i + 1), store_index := some i }

/-- Modelled from the spec: the lookup algorithm `GetEntryByPathSpec`
(also exposed as `GetFileEntryByPathSpec`) of the absent
`dfvfs/vfs/vshadow_file_system.py`. The file system must be open, else
`NotOpen`. An explicit `store_index` is valid iff it lies in
`[0, storeCount)`, out-of-range indices yielding absence, not an error.
Otherwise a `location` of `"/"` yields the root entry, a location of the
exact store form yields the store entry when the store number is in
range, and every other location yields absence. A path specification
with neither attribute is rejected with `InvalidSpec`. -/
def GetEntryByPathSpec (fs : VShadowFileSystem) (spec : VShadowPathSpec) :
    Except VfsError (Option FileEntry) :=
  match fs.state with
  | FSState.Closed => Except.error VfsError.NotOpen
  | FSState.Open storeCount =>
    match spec.store_index with
    | some idx =>
      if 0 ≤ idx ∧ idx < (storeCount : Int) then
        Except.ok (some (storeEntry idx.toNat))
      else Except.ok none
    | none =>
      match spec.location with
      | some loc =>
        if loc = "/" then Except.ok (some rootEntry)
        else
          match locationStoreNumber loc with
          | some k =>
            if k - 1 < storeCount then Except.ok (some (storeEntry (k - 1)))
            else Except.ok none
          | none => Except.ok none
      | none => Except.error VfsError.InvalidSpec

/-- Modelled from the spec: `FileEntryExistsByPathSpec` answers whether an
entry exists for the path specification, applying the same validity checks
as the lookup without materialising an entry. -/
def FileEntryExistsByPathSpec (fs : VShadowFileSystem)
    (spec : VShadowPathSpec) : Except VfsError Bool :=
  match fs.state with
  | FSState.Closed => Except.error VfsError.NotOpen
  | FSState.Open storeCount =>
    match spec.store_index with
    | some idx => Except.ok (decide (0 ≤ idx ∧ idx < (storeCount : Int)))
    | none =>
      match spec.location with
      | some loc =>
        if loc = "/" then Except.ok true
        else
          match locationStoreNumber loc with
          | some k => Except.ok (decide (k - 1 < storeCount))
          | none => Except.ok false
      | none => Except.error VfsError.InvalidSpec

/-- Modelled from the spec: `GetRootFileEntry` looks up the root location
`"/"`. -/
def GetRootFileEntry (fs : VShadowFileSystem) :
    Except VfsError (Option FileEntry) :=
  GetEntryByPathSpec fs { location := some "/" }

/-- Modelled from the spec: `Close()` releases the backing chain and
transitions to `Closed`; it is safe on an already-closed instance. -/
def Close (_fs : VShadowFileSystem) : VShadowFileSystem :=
  { state := FSState.Closed }

/-- Fuel-explicit mirror of the base-ten rendering loop `Nat.toDigitsCore`
that underlies `Nat.repr`, introduced to reason about the decimal string
of a store number. -/
def decLoop : Nat → Nat → List Char → List Char
  | 0, _, ds => ds
  | fuel + 1, n, ds =>
    if n / 10 = 0 then Nat.digitChar (n % 10) :: ds
    else decLoop fuel (n / 10) (Nat.digitChar (n % 10) :: ds)

theorem decLoop_eq (fuel n : Nat) (ds : List Char) :
    decLoop fuel n ds = Nat.toDigitsCore 10 fuel n ds := by
  induction fuel generalizing n ds with
  | zero => rfl
  | succ f ih =>
    show _ = Nat.toDigitsCore 10 (f + 1) n ds
    rw [Nat.toDigitsCore]
    simp only [decLoop]
    split
    · rfl
    · exact ih (n / 10) (Nat.digitChar (n % 10) :: ds)

theorem decLoop_acc (fuel n : Nat) (ds : List Char) :
    decLoop fuel n ds = decLoop fuel n [] ++ ds := by
  induction fuel generalizing n ds with
  | zero => simp [decLoop]
  | succ f ih =>
    simp only [decLoop]
    split
    · simp
    · rw [ih (n / 10) (Nat.digitChar (n % 10) :: ds),
        ih (n / 10) [Nat.digitChar (n % 10)], List.append_assoc]
      simp

theorem decLoop_fuel_free :
    ∀ (n fuel₁ fuel₂ : Nat) (ds : List Char), n < fuel₁ → n < fuel₂ →
      decLoop fuel₁ n ds = decLoop fuel₂ n ds := by
  intro n
  induction n using Nat.strongRecOn with
  | ind n ih =>
    intro fuel₁ fuel₂ ds h₁ h₂
    cases fuel₁ with
    | zero => omega
    | succ f₁ =>
      cases fuel₂ with
      | zero => omega
      | succ f₂ =>
        simp only [decLoop]
        split
        · rfl
        · exact ih (n / 10) (by omega) f₁ f₂ _ (by omega) (by omega)

theorem digitChar_isDigit {m : Nat} (h : m < 10) :
    (Nat.digitChar m).isDigit = true := by
  interval_cases m <;> decide

theorem digitVal_digitChar {m : Nat} (h : m < 10) :
    digitVal (Nat.digitChar m) = m := by
  interval_cases m <;> decide

theorem digitChar_ne_zero_char {m : Nat} (h₁ : 1 ≤ m) (h₂ : m < 10) :
    Nat.digitChar m ≠ '0' := by
  interval_cases m <;> decide

theorem char_eq_of_toNat {c d : Char} (h : c.toNat = d.toNat) : c = d :=
  Char.ext (UInt32.ext h)

theorem digitChar_digitVal {c : Char} (h : c.isDigit = true) :
    Nat.digitChar (digitVal c) = c ∧ digitVal c < 10 := by
  have hb : 48 ≤ c.toNat ∧ c.toNat ≤ 57 := by
    simp only [Char.isDigit, Bool.and_eq_true, decide_eq_true_eq, ge_iff_le,
      UInt32.le_def, BitVec.le_def] at h
    exact h
  have hcases : c.toNat = 48 ∨ c.toNat = 49 ∨ c.toNat = 50 ∨ c.toNat = 51 ∨
      c.toNat = 52 ∨ c.toNat = 53 ∨ c.toNat = 54 ∨ c.toNat = 55 ∨
      c.toNat = 56 ∨ c.toNat = 57 := by omega
  have hval : digitVal c < 10 := by
    unfold digitVal
    omega
  refine ⟨?_, hval⟩
  rcases hcases with h | h | h | h | h | h | h | h | h | h <;>
    rw [← Char.ofNat_toNat c, h] <;> decide

theorem digitsVal_append (cs : List Char) (d : Char) :
    digitsVal (cs ++ [d]) = digitsVal cs * 10 + digitVal d := by
  simp [digitsVal, List.foldl_append]

theorem digitsVal_fold_ge (cs : List Char) (a : Nat) (h : 1 ≤ a) :
    1 ≤ cs.foldl (fun x c => x * 10 + digitVal c) a := by
  induction cs generalizing a with
  | nil => simpa using h
  | cons c cs ih =>
    simp only [List.foldl_cons]
    exact ih _ (by omega)

theorem digitsVal_pos {c : Char} (cs : List Char) (hd : c.isDigit = true)
    (hc : c ≠ '0') : 1 ≤ digitsVal (c :: cs) := by
  have hb := digitChar_digitVal hd
  have h1 : 1 ≤ digitVal c := by
    by_contra hcon
    have h0 : digitVal c = 0 := by omega
    rw [h0] at hb
    have hz : Nat.digitChar 0 = '0' := by decide
    exact hc (hz ▸ hb.1).symm
  have hrw : digitsVal (c :: cs) =
      cs.foldl (fun x d => x * 10 + digitVal d) (digitVal c) := by
    simp [digitsVal]
  rw [hrw]
  exact digitsVal_fold_ge cs (digitVal c) h1

theorem decLoop_readback (n : Nat) :
    digitsVal (decLoop (n + 1) n []) = n := by
  induction n using Nat.strongRecOn with
  | ind n ih =>
    simp only [decLoop]
    split
    · next h0 =>
      have hlt : n % 10 < 10 := Nat.mod_lt _ (by omega)
      simp [digitsVal, digitVal_digitChar hlt]
      omega
    · next h0 =>
      rw [decLoop_acc, digitsVal_append,
        decLoop_fuel_free (n / 10) n (n / 10 + 1) [] (by omega) (by omega),
        ih (n / 10) (by omega),
        digitVal_digitChar (Nat.mod_lt _ (by omega))]
      omega

theorem decLoop_digits (fuel n : Nat) (ds : List Char)
    (hds : ∀ c ∈ ds, c.isDigit = true) :
    ∀ c ∈ decLoop fuel n ds, c.isDigit = true := by
  induction fuel generalizing n ds with
  | zero => simpa [decLoop] using hds
  | succ f ih =>
    simp only [decLoop]
    split
    · intro c hc
      rcases List.mem_cons.mp hc with rfl | hc
      · exact digitChar_isDigit (Nat.mod_lt _ (by omega))
      · exact hds c hc
    · refine ih _ _ (fun c hc => ?_)
      rcases List.mem_cons.mp hc with rfl | hc
      · exact digitChar_isDigit (Nat.mod_lt _ (by omega))
      · exact hds c hc

theorem decLoop_ne_nil (fuel n : Nat) (h : n < fuel) :
    decLoop fuel n [] ≠ [] := by
  cases fuel with
  | zero => omega
  | succ f =>
    simp only [decLoop]
    split
    · simp
    · rw [decLoop_acc]
      simp

theorem decLoop_head_ne_zero :
    ∀ (n fuel : Nat) (ds : List Char), 1 ≤ n → n < fuel →
      ∀ (c : Char) (cs : List Char), decLoop fuel n ds = c :: cs →
        c ≠ '0' := by
  intro n
  induction n using Nat.strongRecOn with
  | ind n ih =>
    intro fuel ds h1 hf c cs heq
    cases fuel with
    | zero => omega
    | succ f =>
      simp only [decLoop] at heq
      by_cases h0 : n / 10 = 0
      · rw [if_pos h0] at heq
        injection heq with hc _
        have hn : n < 10 := by omega
        rw [← hc, Nat.mod_eq_of_lt hn]
        exact digitChar_ne_zero_char h1 hn
      · rw [if_neg h0] at heq
        exact ih (n / 10) (by omega) f _ (by omega) (by omega) c cs heq

theorem decLoop_canonical (c : Char) (cs : List Char) :
    (∀ x ∈ c :: cs, x.isDigit = true) → c ≠ '0' →
    ∀ fuel, digitsVal (c :: cs) < fuel →
      decLoop fuel (digitsVal (c :: cs)) [] = c :: cs := by
  induction cs using List.reverseRecOn with
  | nil =>
    intro hdig hc fuel hfuel
    have hd := digitChar_digitVal (hdig c (by simp))
    have hv : digitsVal [c] = digitVal c := by simp [digitsVal]
    cases fuel with
    | zero => omega
    | succ f =>
      simp only [decLoop]
      rw [if_pos (by omega : digitsVal [c] / 10 = 0)]
      rw [hv, Nat.mod_eq_of_lt hd.2, hd.1]
  | append_singleton ds d ih =>
    intro hdig hc fuel hfuel
    have hdd : d.isDigit = true := hdig d (by simp)
    have hdcd := digitChar_digitVal hdd
    have hval : digitsVal (c :: (ds ++ [d])) =
        digitsVal (c :: ds) * 10 + digitVal d := by
      rw [show c :: (ds ++ [d]) = (c :: ds) ++ [d] from rfl]
      exact digitsVal_append (c :: ds) d
    have hm1 : 1 ≤ digitsVal (c :: ds) :=
      digitsVal_pos ds (hdig c (by simp)) hc
    cases fuel with
    | zero => omega
    | succ f =>
      simp only [decLoop]
      have h10 : digitsVal (c :: (ds ++ [d])) / 10 = digitsVal (c :: ds) := by
        rw [hval]
        omega
      have hmod : digitsVal (c :: (ds ++ [d])) % 10 = digitVal d := by
        rw [hval]
        omega
      have hsub : ∀ x ∈ c :: ds, x.isDigit = true := by
        intro x hx
        apply hdig
        rcases List.mem_cons.mp hx with rfl | hx'
        · exact List.mem_cons_self _ _
        · exact List.mem_cons_of_mem _ (List.mem_append_left _ hx')
      rw [if_neg (by rw [h10]; omega)]
      rw [decLoop_acc, h10, hmod, hdcd.1]
      rw [ih hsub hc f (by omega)]
      simp

theorem toString_nat_toList (n : Nat) :
    (toString n).toList = decLoop (n + 1) n [] := by
  rw [decLoop_eq]
  rfl

theorem parseStoreNumber_toString (k : Nat) (hk : 1 ≤ k) :
    parseStoreNumber (toString k).toList = some k := by
  rw [toString_nat_toList]
  have hne := decLoop_ne_nil (k + 1) k (by omega)
  have hdig := decLoop_digits (k + 1) k [] (by simp)
  obtain ⟨c, cs, hcons⟩ : ∃ c cs, decLoop (k + 1) k [] = c :: cs := by
    cases h : decLoop (k + 1) k [] with
    | nil => exact absurd h hne
    | cons c cs => exact ⟨c, cs, rfl⟩
  rw [hcons]
  have hcz : c ≠ '0' :=
    decLoop_head_ne_zero k (k + 1) [] hk (by omega) c cs hcons
  have hall : (c :: cs).all Char.isDigit = true := by
    rw [List.all_eq_true]
    intro x hx
    exact hdig x (hcons ▸ hx)
  simp only [parseStoreNumber]
  rw [if_pos ⟨hall, hcz⟩, ← hcons, decLoop_readback]

theorem parseStoreNumber_sound {cs : List Char} {k : Nat}
    (h : parseStoreNumber cs = some k) :
    1 ≤ k ∧ cs = (toString k).toList := by
  cases cs with
  | nil => simp [parseStoreNumber] at h
  | cons c rest =>
    simp only [parseStoreNumber] at h
    split at h
    · next hcond =>
      obtain ⟨hall, hcz⟩ := hcond
      injection h with hk
      have hd : ∀ x ∈ c :: rest, x.isDigit = true := List.all_eq_true.mp hall
      have hpos : 1 ≤ digitsVal (c :: rest) := digitsVal_pos rest (hd c (by simp)) hcz
      subst hk
      refine ⟨hpos, ?_⟩
      rw [toString_nat_toList]
      exact (decLoop_canonical c rest hd hcz (digitsVal (c :: rest) + 1)
        (by omega)).symm
    · exact absurd h (by simp)

theorem string_eq_of_toList {s t : String} (h : s.toList = t.toList) :
    s = t := by
  cases s with
  | mk d₁ =>
    cases t with
    | mk d₂ =>
      simp only [String.toList] at h
      rw [h]

theorem toList_vss_append (s : String) :
    ("/vss" ++ s).toList = ['/', 'v', 's', 's'] ++ s.toList := rfl

theorem locationStoreNumber_vss (k : Nat) (hk : 1 ≤ k) :
    locationStoreNumber ("/vss" ++ toString k) = some k := by
  unfold locationStoreNumber
  rw [toList_vss_append,
    List.take_left' (by rfl),
    List.drop_left' (by rfl),
    if_pos rfl]
  exact parseStoreNumber_toString k hk

theorem locationStoreNumber_sound {loc : String} {k : Nat}
    (h : locationStoreNumber loc = some k) :
    1 ≤ k ∧ loc = "/vss" ++ toString k := by
  unfold locationStoreNumber at h
  split at h
  · next htake =>
    obtain ⟨hk1, hrest⟩ := parseStoreNumber_sound h
    refine ⟨hk1, ?_⟩
    apply string_eq_of_toList
    rw [toList_vss_append, ← hrest, ← htake, List.take_append_drop]
  · exact absurd h (by simp)

theorem vss_ne_root (k : Nat) : "/vss" ++ toString k ≠ "/" := by
  intro he
  have hlen := congrArg (fun s => s.toList.length) he
  simp only [toList_vss_append, List.length_append, List.length_cons,
    List.length_nil] at hlen
  have hroot : ("/" : String).toList = ['/'] := rfl
  rw [hroot] at hlen
  simp only [List.length_cons, List.length_nil] at hlen
  omega

/-- C1: on an open store-volume file system with `storeCount = N`, a lookup
whose path specification carries an explicit store index `i` returns the
store entry of `i` exactly when `0 ≤ i < N`, and returns absence
(`Except.ok none`, not an error) for every integer `i` outside that
range. -/
theorem getEntry_store_index_range (fs : VShadowFileSystem) (N : Nat)
    (i : Int) (loc : Option String) (hopen : fs.state = FSState.Open N) :
    (GetEntryByPathSpec fs { store_index := some i, location := loc }
        = Except.ok (some (storeEntry i.toNat)) ↔ 0 ≤ i ∧ i < (N : Int)) ∧
    (GetEntryByPathSpec fs { store_index := some i, location := loc }
        = Except.ok none ↔ ¬(0 ≤ i ∧ i < (N : Int))) := by
  obtain ⟨st⟩ := fs
  obtain rfl : st = FSState.Open N := hopen
  by_cases h : 0 ≤ i ∧ i < (N : Int) <;>
    simp [GetEntryByPathSpec, h]

/-- C1 witness: on a file system with two stores, index 1 is present and
index 9 is absent without an error. -/
theorem getEntry_store_index_range_check :
    GetEntryByPathSpec ⟨FSState.Open 2⟩ { store_index := some 1, location := none }
      = Except.ok (some (storeEntry (1 : Int).toNat)) ∧
    GetEntryByPathSpec ⟨FSState.Open 2⟩ { store_index := some 9, location := none }
      = Except.ok none :=
  ⟨(getEntry_store_index_range ⟨FSState.Open 2⟩ 2 1 none rfl).1.mpr (by decide),
   (getEntry_store_index_range ⟨FSState.Open 2⟩ 2 9 none rfl).2.mpr (by decide)⟩

/-- C2: on an open store-volume file system with `storeCount = N`, location
`"/"` yields the root entry; a location of the exact form `"/vss"` followed
by the decimal representation of a positive integer `k` yields the store
entry with index `k - 1` whenever `k - 1 < N`; and every other location —
malformed, zero-padded, out of range, or unrelated — yields absence and
never an error. -/
theorem getEntry_location_resolution (fs : VShadowFileSystem) (N : Nat)
    (hopen : fs.state = FSState.Open N) :
    GetEntryByPathSpec fs { location := some "/" }
      = Except.ok (some rootEntry) ∧
    (∀ k : Nat, 1 ≤ k → k - 1 < N →
      GetEntryByPathSpec fs { location := some ("/vss" ++ toString k) }
        = Except.ok (some (storeEntry (k - 1)))) ∧
    (∀ loc : String,
      ¬(loc = "/" ∨ ∃ k : Nat, 1 ≤ k ∧ k - 1 < N ∧ loc = "/vss" ++ toString k) →
      GetEntryByPathSpec fs { location := some loc } = Except.ok none) := by
  obtain ⟨st⟩ := fs
  obtain rfl : st = FSState.Open N := hopen
  refine ⟨by simp [GetEntryByPathSpec], ?_, ?_⟩
  · intro k hk hkN
    have hvss := locationStoreNumber_vss k hk
    have hne := vss_ne_root k
    simp only [GetEntryByPathSpec]
    rw [if_neg hne, hvss]
    exact if_pos hkN
  · intro loc hno
    have h1 : loc ≠ "/" := fun h => hno (Or.inl h)
    have h2 : ¬∃ k : Nat, 1 ≤ k ∧ k - 1 < N ∧ loc = "/vss" ++ toString k :=
      fun h => hno (Or.inr h)
    simp only [GetEntryByPathSpec]
    rw [if_neg h1]
    cases hk : locationStoreNumber loc with
    | none => rfl
    | some k =>
      obtain ⟨hk1, hloc⟩ := locationStoreNumber_sound hk
      exact if_neg fun hlt => h2 ⟨k, hk1, hlt, hloc⟩

/-- C2 witness: on a file system with two stores, the root location, the
location of store number 2, and the zero-padded location `"/vss0"` behave
as claimed. -/
theorem getEntry_location_resolution_check :
    GetEntryByPathSpec ⟨FSState.Open 2⟩ { location := some "/" }
      = Except.ok (some rootEntry) ∧
    GetEntryByPathSpec ⟨FSState.Open 2⟩
        { location := some ("/vss" ++ toString 2) }
      = Except.ok (some (storeEntry 1)) ∧
    GetEntryByPathSpec ⟨FSState.Open 2⟩ { location := some "/vss0" }
      = Except.ok none := by
  refine ⟨(getEntry_location_resolution ⟨FSState.Open 2⟩ 2 rfl).1,
    (getEntry_location_resolution ⟨FSState.Open 2⟩ 2 rfl).2.1 2
      (by decide) (by decide),
    (getEntry_location_resolution ⟨FSState.Open 2⟩ 2 rfl).2.2 "/vss0" ?_⟩
  rintro (h | ⟨k, hk1, hk2, hloc⟩)
  · exact absurd h (by decide)
  · have hk3 : k ≤ 2 := by omega
    interval_cases k
    · exact absurd hloc (by decide)
    · exact absurd hloc (by decide)

/-- C3: for every file system state and every path specification,
`FileEntryExistsByPathSpec` returns exactly the presence bit of
`GetEntryByPathSpec` — the two operations never disagree, and they fail
in exactly the same cases. -/
theorem fileEntryExists_agrees_getEntry (fs : VShadowFileSystem)
    (spec : VShadowPathSpec) :
    FileEntryExistsByPathSpec fs spec =
      (GetEntryByPathSpec fs spec).map Option.isSome := by
  obtain ⟨st⟩ := fs
  obtain ⟨si, lo⟩ := spec
  cases st with
  | Closed => rfl
  | Open N =>
    cases si with
    | some i =>
      by_cases h : 0 ≤ i ∧ i < (N : Int) <;>
        simp [FileEntryExistsByPathSpec, GetEntryByPathSpec, Except.map, h]
    | none =>
      cases lo with
      | none => rfl
      | some loc =>
        by_cases hroot : loc = "/"
        · simp [FileEntryExistsByPathSpec, GetEntryByPathSpec, Except.map, hroot]
        · cases hk : locationStoreNumber loc with
          | none =>
            simp [FileEntryExistsByPathSpec, GetEntryByPathSpec, Except.map,
              hroot, hk]
          | some k =>
            by_cases hr : k - 1 < N <;>
              simp [FileEntryExistsByPathSpec, GetEntryByPathSpec, Except.map,
                hroot, hk, hr]

/-- C4: on an open store-volume file system, `GetRootFileEntry` is the
lookup of location `"/"`, and it always succeeds with the root entry. -/
theorem getRootFileEntry_is_root_lookup (fs : VShadowFileSystem) (N : Nat)
    (hopen : fs.state = FSState.Open N) :
    GetRootFileEntry fs = GetEntryByPathSpec fs { location := some "/" } ∧
    GetRootFileEntry fs = Except.ok (some rootEntry) := by
  refine ⟨rfl, ?_⟩
  obtain ⟨st⟩ := fs
  obtain rfl : st = FSState.Open N := hopen
  simp [GetRootFileEntry, GetEntryByPathSpec]

/-- C4 witness: on a file system with two stores the root lookup
succeeds. -/
theorem getRootFileEntry_is_root_lookup_check :
    GetRootFileEntry ⟨FSState.Open 2⟩ = Except.ok (some rootEntry) :=
  (getRootFileEntry_is_root_lookup ⟨FSState.Open 2⟩ 2 rfl).2

/-- C5: on an open store-volume file system with `storeCount = N`, the root
entry's name is the empty string and the entry of store index `i < N` is
named `"vss"` followed by the decimal representation of `i + 1`. -/
theorem entry_name_convention (fs : VShadowFileSystem) (N : Nat)
    (hopen : fs.state = FSState.Open N) :
    (GetRootFileEntry fs).map (Option.map FileEntry.name)
      = Except.ok (some "") ∧
    (∀ i : Nat, i < N →
      (GetEntryByPathSpec fs
          { store_index := some (i : Int), location := none }).map
          (Option.map FileEntry.name)
        = Except.ok (some ("vss" ++ toString (i + 1)))) := by
  obtain ⟨st⟩ := fs
  obtain rfl : st = FSState.Open N := hopen
  constructor
  · simp [GetRootFileEntry, GetEntryByPathSpec, Except.map, rootEntry]
  · intro i hi
    have hr : 0 ≤ (i : Int) ∧ (i : Int) < (N : Int) :=
      ⟨Int.ofNat_nonneg i, by exact_mod_cast hi⟩
    simp [GetEntryByPathSpec, hr, Except.map, storeEntry]

/-- C5 witness: with two stores, the root entry is named by the empty
string and store index 1 is named by the string vss2. -/
theorem entry_name_convention_check :
    (GetRootFileEntry ⟨FSState.Open 2⟩).map (Option.map FileEntry.name)
      = Except.ok (some "") ∧
    (GetEntryByPathSpec ⟨FSState.Open 2⟩
        { store_index := some ((1 : Nat) : Int), location := none }).map
        (Option.map FileEntry.name)
      = Except.ok (some ("vss" ++ toString (1 + 1))) :=
  ⟨(entry_name_convention ⟨FSState.Open 2⟩ 2 rfl).1,
   (entry_name_convention ⟨FSState.Open 2⟩ 2 rfl).2 1 (by decide)⟩

/-- C6: on a store-volume file system that is not open — in particular on
one that `Close` was just called on — every lookup operation fails with
`NotOpen` rather than returning absence. -/
theorem closed_lookup_not_open (fs fs₂ : VShadowFileSystem)
    (spec : VShadowPathSpec) (hclosed : fs.state = FSState.Closed) :
    GetEntryByPathSpec fs spec = Except.error VfsError.NotOpen ∧
    FileEntryExistsByPathSpec fs spec = Except.error VfsError.NotOpen ∧
    GetRootFileEntry fs = Except.error VfsError.NotOpen ∧
    GetEntryByPathSpec (Close fs₂) spec = Except.error VfsError.NotOpen ∧
    FileEntryExistsByPathSpec (Close fs₂) spec
      = Except.error VfsError.NotOpen ∧
    GetRootFileEntry (Close fs₂) = Except.error VfsError.NotOpen := by
  obtain ⟨st⟩ := fs
  obtain rfl : st = FSState.Closed := hclosed
  exact ⟨rfl, rfl, rfl, rfl, rfl, rfl⟩

/-- C6 witness: lookups on a closed instance and on a just-closed open
instance fail with `NotOpen`. -/
theorem closed_lookup_not_open_check :
    GetEntryByPathSpec ⟨FSState.Closed⟩ { location := some "/" }
      = Except.error VfsError.NotOpen ∧
    GetRootFileEntry (Close ⟨FSState.Open 2⟩)
      = Except.error VfsError.NotOpen :=
  ⟨(closed_lookup_not_open ⟨FSState.Closed⟩ ⟨FSState.Open 2⟩
      { location := some "/" } rfl).1,
   (closed_lookup_not_open ⟨FSState.Closed⟩ ⟨FSState.Open 2⟩
      { location := some "/" } rfl).2.2.2.2.2⟩

/-- C7: on an open store-volume file system, a lookup whose path
specification carries neither a store index nor a location fails with
`InvalidSpec`, a surfaced error distinct from the absence result. -/
theorem lookup_without_index_or_location (fs : VShadowFileSystem) (N : Nat)
    (hopen : fs.state = FSState.Open N) :
    GetEntryByPathSpec fs { store_index := none, location := none }
      = Except.error VfsError.InvalidSpec ∧
    FileEntryExistsByPathSpec fs { store_index := none, location := none }
      = Except.error VfsError.InvalidSpec := by
  obtain ⟨st⟩ := fs
  obtain rfl : st = FSState.Open N := hopen
  exact ⟨rfl, rfl⟩

/-- C7 witness: the empty path specification is rejected on a file system
with two stores. -/
theorem lookup_without_index_or_location_check :
    GetEntryByPathSpec ⟨FSState.Open 2⟩ { store_index := none, location := none }
      = Except.error VfsError.InvalidSpec :=
  (lookup_without_index_or_location ⟨FSState.Open 2⟩ 2 rfl).1

/-- C8: `Close` is idempotent — closing an already-closed instance is not
an error (the operation is total) and any number of consecutive `Close`
calls leaves the state `Closed`. -/
theorem close_idempotent (fs : VShadowFileSystem) :
    Close (Close fs) = Close fs ∧
    (Close fs).state = FSState.Closed ∧
    (Close (Close fs)).state = FSState.Closed :=
  ⟨rfl, rfl, rfl⟩

/-- C9: in `CheckPythonModule`, when the module imports but exposes no
attribute of the given version attribute name, `getattr` yields `None`,
the subsequent split of the version string raises `AttributeError`, and
the function propagates that exception instead of returning `False`. -/
theorem checkPythonModule_missing_version_attribute
    (modules : String → Option PyModule)
    (module_name version_attribute_name minimum_version : String)
    (m : PyModule) (him : modules module_name = some m)
    (hattr : m.getattr version_attribute_name = none) :
    CheckPythonModule modules module_name version_attribute_name
      minimum_version = Except.error PyExc.AttributeError := by
  simp only [CheckPythonModule, him, hattr, pySplitVersion]
  rfl

/-- C9 witness: a module that imports but has no version attribute makes
`CheckPythonModule` raise `AttributeError`. -/
theorem checkPythonModule_missing_version_attribute_check :
    CheckPythonModule
      (fun n => if n = "construct" then some ⟨fun _ => none⟩ else none)
      "construct" "__version__" "2.5.1"
      = Except.error PyExc.AttributeError :=
  checkPythonModule_missing_version_attribute _ "construct" "__version__"
    "2.5.1" ⟨fun _ => none⟩ rfl rfl

/-- C10: `GetLibyalGoogleDriveVersion` returns `None` — not the documented
value 0 — when the first fetch answers with a code other than 200, while
the other error paths (no or several Downloads matches, a non-200 second
fetch, no version matches) all return 0. -/
theorem getLibyal_error_paths (first_code : Nat)
    (downloads_matches : List String) (second_code : Nat)
    (version_matches : List String) :
    (first_code ≠ 200 →
      GetLibyalGoogleDriveVersion first_code downloads_matches second_code
        version_matches = none) ∧
    (first_code = 200 → downloads_matches.length ≠ 1 →
      GetLibyalGoogleDriveVersion first_code downloads_matches second_code
        version_matches = some 0) ∧
    (first_code = 200 → downloads_matches.length = 1 → second_code ≠ 200 →
      GetLibyalGoogleDriveVersion first_code downloads_matches second_code
        version_matches = some 0) ∧
    (first_code = 200 → downloads_matches.length = 1 → second_code = 200 →
      version_matches = [] →
      GetLibyalGoogleDriveVersion first_code downloads_matches second_code
        version_matches = some 0) := by
  unfold GetLibyalGoogleDriveVersion
  refine ⟨fun h1 => if_pos h1, fun h1 h2 => ?_, fun h1 h2 h3 => ?_,
    fun h1 h2 h3 h4 => ?_⟩
  · rw [if_neg (fun hc => hc h1), if_pos (Or.inr h2)]
  · rw [if_neg (fun hc => hc h1),
      if_neg (fun hc => hc.elim (fun hnil => by simp [hnil] at h2)
        (fun hbad => hbad h2)),
      if_pos h3]
  · rw [if_neg (fun hc => hc h1),
      if_neg (fun hc => hc.elim (fun hnil => by simp [hnil] at h2)
        (fun hbad => hbad h2)),
      if_neg (fun hc => hc h3), if_pos h4]

/-- C10 witness: a 404 on the first fetch yields `None`; an empty
Downloads match list, a 500 on the second fetch, and an empty version
match list each yield 0. -/
theorem getLibyal_error_paths_check :
    GetLibyalGoogleDriveVersion 404 ["u"] 200 ["1"] = none ∧
    GetLibyalGoogleDriveVersion 200 [] 200 ["1"] = some 0 ∧
    GetLibyalGoogleDriveVersion 200 ["u"] 500 ["1"] = some 0 ∧
    GetLibyalGoogleDriveVersion 200 ["u"] 200 [] = some 0 :=
  ⟨(getLibyal_error_paths 404 ["u"] 200 ["1"]).1 (by decide),
   (getLibyal_error_paths 200 [] 200 ["1"]).2.1 rfl (by decide),
   (getLibyal_error_paths 200 ["u"] 500 ["1"]).2.2.1 rfl (by decide)
     (by decide),
   (getLibyal_error_paths 200 ["u"] 200 []).2.2.2 rfl (by decide) rfl rfl⟩

end Dfvfs
